import Mathlib

/-!
Verification of the MultiAgent_ToDO task manager core: the Planner,
Scheduler and Reminder agents (agents.py) and the record store
(storage.py), shallowly embedded over plain records. Timestamps are
integers counting seconds; Python `timedelta` arithmetic on
`datetime` values becomes integer arithmetic, and `timedelta.days`
becomes flooring division by 86400.
-/

namespace ToDo

/-- Task priority: the fixed set {Low, Medium, High}. -/
inductive Priority where
  | low
  | medium
  | high
deriving DecidableEq, Repr, Inhabited

/-- Task status: starts `pending`; set to `completed` on completion. -/
inductive Status where
  | pending
  | completed
deriving DecidableEq, Repr, Inhabited

/-- The reminder classification written into a record's `reminder_type`
field by `check_reminders`: either `overdue`, or `due_in th` where `th`
is the matched threshold in seconds (the Python code renders the
threshold timedelta into the string `due_in_...`). -/
inductive ReminderType where
  | overdue
  | due_in (threshold : Int)
deriving DecidableEq, Repr, Inhabited

/-- A task record (the Python dict), with the derived fields optional:
they are absent until the corresponding agent sets them. `due_date` and
the derived times are integer timestamps in seconds. -/
structure Task where
  id : String
  title : String
  description : String
  priority : Priority
  due_date : Int
  status : Status
  estimated_duration : Option Int := none
  tags : List String := []
  scheduled_time : Option Int := none
  preparation_time : Option Int := none
  buffer_time : Option Int := none
  optimization_score : Option Int := none
  reminder_type : Option ReminderType := none
deriving DecidableEq, Repr, Inhabited

/-! ## Planner (PlannerAgent, agents.py lines 5-41) -/

/-- `PlannerAgent._estimate_duration`: duration from combined content
length (Python `len(title) + len(description)`). -/
def estimate_duration (title description : String) : Int :=
  let content_length := title.length + description.length
  if content_length < 50 then 30
  else if content_length < 100 then 60
  else 120

/-- The fixed tag vocabulary `common_tags` of
`PlannerAgent._extract_tags`. -/
def common_tags : List String :=
  ["meeting", "call", "email", "report", "review", "urgent", "important"]

/-- Python `str.lower()` on the character list of a string. -/
def lowerChars (s : String) : List Char :=
  s.toList.map Char.toLower

/-- Python `needle in haystack`: `needle` occurs as a contiguous
substring of `haystack` (character lists). -/
def substrB (needle : List Char) : List Char → Bool
  | [] => needle.isEmpty
  | c :: rest => needle.isPrefixOf (c :: rest) || substrB needle rest

/-- `PlannerAgent._extract_tags`: the vocabulary words occurring in
`(title + ' ' + description).lower()`, kept in vocabulary order. -/
def extract_tags (title description : String) : List String :=
  let content := lowerChars (title ++ " " ++ description)
  common_tags.filter (fun tag => substrB tag.toList content)

/-- Tag extraction as the claim words it: vocabulary words occurring
case-insensitively in `title + description` (no separator), for
comparison with `extract_tags`, which the source computes over
`title + ' ' + description`. -/
def extract_tags_concat (title description : String) : List String :=
  let content := lowerChars (title ++ description)
  common_tags.filter (fun tag => substrB tag.toList content)

/-! ## Scheduler (SchedulerAgent, agents.py lines 43-100) -/

/-- The `priority_scores` dict of `optimize_schedule`. -/
def priority_scores : Priority → Int
  | .high => 3
  | .medium => 2
  | .low => 1

/-- Python `(due_date - datetime.now()).days`: flooring division of the
signed difference in seconds by one day. -/
def days_until_due (now due : Int) : Int :=
  Int.fdiv (due - now) 86400

/-- The per-record body of `optimize_schedule`'s scoring loop: a pending
record gets `optimization_score = urgency_score + priority_score`
written into it; the loop runs only over pending records, so any other
record is left untouched. -/
def assign_score (now : Int) (t : Task) : Task :=
  if t.status = Status.pending then
    let urgency_score := max 1 (5 - days_until_due now t.due_date)
    { t with optimization_score := some (urgency_score + priority_scores t.priority) }
  else t

/-- `SchedulerAgent.optimize_schedule`: scores every pending record in
place and returns the original list object. The Python code also sorts
a locally-built list `pending_tasks` of references to the pending
records, but that local list is discarded; the returned value is the
input list, whose elements carry the new scores. -/
def optimize_schedule (now : Int) (tasks : List Task) : List Task :=
  tasks.map (assign_score now)

/-- `SchedulerAgent._calculate_optimal_time`: due date minus 2 hours for
High, 1 hour for Medium, 30 minutes otherwise. -/
def calculate_optimal_time (t : Task) : Int :=
  if t.priority = Priority.high then t.due_date - 7200
  else if t.priority = Priority.medium then t.due_date - 3600
  else t.due_date - 1800

/-- `SchedulerAgent._calculate_prep_time`: 15 for meetings, else 30 for
reports, else 5. -/
def calculate_prep_time (t : Task) : Int :=
  if t.tags.contains "meeting" then 15
  else if t.tags.contains "report" then 30
  else 5

/-- `SchedulerAgent.schedule_task`: writes `scheduled_time`,
`preparation_time` and the constant 15-minute `buffer_time`. -/
def schedule_task (t : Task) : Task :=
  { t with
    scheduled_time := some (calculate_optimal_time t)
    preparation_time := some (calculate_prep_time t)
    buffer_time := some 15 }

/-! ## Reminder evaluator (ReminderAgent, agents.py lines 102-141) -/

/-- The `reminder_thresholds` table, in seconds: High gets
[2h, 1h, 30min], Medium [1h, 30min], Low [30min], each list evaluated
in that order. -/
def reminder_thresholds : Priority → List Int
  | .high => [7200, 3600, 1800]
  | .medium => [3600, 1800]
  | .low => [1800]

/-- The threshold loop of `check_reminders`: the first threshold in the
list with `time_until_due ≤ threshold`, if any (the Python `for`/`break`). -/
def findThreshold (time_until_due : Int) : List Int → Option Int
  | [] => none
  | th :: rest =>
    if time_until_due ≤ th then some th else findThreshold time_until_due rest

/-- The classification `check_reminders` performs on one record:
completed records are skipped; a record strictly past due is `overdue`;
otherwise the priority's threshold list is scanned in order. -/
def classify (now : Int) (t : Task) : Option ReminderType :=
  if t.status = Status.completed then none
  else
    let time_until_due := t.due_date - now
    if time_until_due < 0 then some ReminderType.overdue
    else
      match findThreshold time_until_due (reminder_thresholds t.priority) with
      | some th => some (ReminderType.due_in th)
      | none => none

/-- The accumulator loop of `check_reminders`: an overdue record is
appended unconditionally; a threshold match is appended unless an equal
record is already present (the Python `if task not in reminders`). -/
def check_go (now : Int) : List Task → List Task → List Task
  | [], reminders => reminders
  | task :: rest, reminders =>
    match classify now task with
    | none => check_go now rest reminders
    | some rt =>
      let task2 := { task with reminder_type := some rt }
      if rt = ReminderType.overdue then check_go now rest (reminders ++ [task2])
      else if task2 ∈ reminders then check_go now rest reminders
      else check_go now rest (reminders ++ [task2])

/-- `ReminderAgent.check_reminders`: scans the records, writes
`reminder_type` into each qualifying record and collects them. -/
def check_reminders (now : Int) (tasks : List Task) : List Task :=
  check_go now tasks []

/-! ## Record store (TaskStorage, storage.py), value level

The in-memory list `self.tasks`; the mirrored file write `_save_tasks`
catches its own exceptions, so the list operations below are the whole
observable in-memory behavior and none of them can raise. Each
operation returns the Python return value paired with the new list. -/

/-- `TaskStorage.add_task`: appends unconditionally and returns True. -/
def add_task (ts : List Task) (t : Task) : Bool × List Task :=
  (true, ts ++ [t])

/-- `TaskStorage.update_task`: replaces the first record whose `id`
equals `task_id` with `updated_task` and returns True; returns False
leaving the list unchanged when no record matches. -/
def update_task (ts : List Task) (task_id : String) (updated_task : Task) :
    Bool × List Task :=
  match ts with
  | [] => (false, [])
  | x :: xs =>
    if x.id = task_id then (true, updated_task :: xs)
    else
      let r := update_task xs task_id updated_task
      (r.1, x :: r.2)

/-- `TaskStorage.delete_task`: keeps the records whose `id` differs from
`task_id` and returns True (it returns True whether or not anything was
removed). -/
def delete_task (ts : List Task) (task_id : String) : Bool × List Task :=
  (true, ts.filter (fun t => t.id ≠ task_id))

/-! ## Record store, reference level (for the copy semantics)

`get_all_tasks` returns `self.tasks.copy()`: a new list whose elements
are the same record objects, and `get_task_by_id` returns
`task.copy()`: a fresh record whose fields are copied. To state what
mutating a returned record does to the store, records live in a heap
(addresses are indices into `heap`) and the store's list holds
addresses; mutating a record is a heap update at its address. -/

/-- The store with explicit sharing: `tasks` holds heap addresses. -/
structure StoreState where
  heap : List Task
  tasks : List Nat
deriving DecidableEq, Repr

/-- The record sequence the store currently holds, read through the
heap. -/
def readStore (s : StoreState) : List Task :=
  s.tasks.map (fun a => s.heap.getD a default)

/-- `TaskStorage.get_all_tasks` = `self.tasks.copy()`: a fresh list of
the same addresses — the records themselves are shared, not copied. -/
def get_all_tasks (s : StoreState) : List Nat :=
  s.tasks

/-- `TaskStorage.get_task_by_id`: linear scan for the first record whose
`id` matches; on a hit, `task.copy()` allocates a fresh record with the
same field values and its fresh address is returned. -/
def get_task_by_id (s : StoreState) (task_id : String) :
    Option Nat × StoreState :=
  match s.tasks.find? (fun a => (s.heap.getD a default).id = task_id) with
  | some a =>
    (some s.heap.length, { s with heap := s.heap ++ [s.heap.getD a default] })
  | none => (none, s)

/-- A caller mutating a field of the record at address `a` (Python
`task[field] = value` on the object it holds). -/
def mutate (s : StoreState) (a : Nat) (f : Task → Task) : StoreState :=
  { s with heap := s.heap.set a (f (s.heap.getD a default)) }

/-- Heap well-formedness: every stored address points into the heap. -/
def wfStore (s : StoreState) : Prop :=
  ∀ a ∈ s.tasks, a < s.heap.length

/-! ## Operation sequences over the store (for the id-uniqueness claim) -/

/-- One mutating store call. -/
inductive StoreOp where
  | add (t : Task)
  | update (task_id : String) (t : Task)
  | delete (task_id : String)
deriving DecidableEq, Repr

/-- Apply one store call to the in-memory list. -/
def applyOp (ts : List Task) : StoreOp → List Task
  | .add t => (add_task ts t).2
  | .update task_id t => (update_task ts task_id t).2
  | .delete task_id => (delete_task ts task_id).2

/-- Run a sequence of store calls from the empty store. -/
def execOps (ops : List StoreOp) : List Task :=
  ops.foldl applyOp []

/-- The ids carried by the records the sequence adds. -/
def addedIds : List StoreOp → List String
  | [] => []
  | .add t :: rest => t.id :: addedIds rest
  | .update _ _ :: rest => addedIds rest
  | .delete _ :: rest => addedIds rest

/-- Every update in the sequence keeps the identifier it addresses:
the replacement record's `id` equals the `task_id` argument. -/
def updatesKeepId : List StoreOp → Bool
  | [] => true
  | .update task_id t :: rest => t.id = task_id && updatesKeepId rest
  | .add _ :: rest => updatesKeepId rest
  | .delete _ :: rest => updatesKeepId rest

/-! ## Concrete records used as test inputs -/

/-- A pending High-priority record due 1500 s (25 min) from time 0. -/
def c1Task25 : Task :=
  { id := "h", title := "t", description := "", priority := .high,
    due_date := 1500, status := .pending }

/-- A pending Low-priority record due 3600 s (1 h) before time 0. -/
def c1TaskPast : Task :=
  { id := "p", title := "t", description := "", priority := .low,
    due_date := -3600, status := .pending }

/-- Scenario task A: pending, Low priority, due 1 day after time 0. -/
def c2taskA : Task :=
  { id := "a", title := "", description := "", priority := .low,
    due_date := 86400, status := .pending }

/-- Scenario task B: pending, High priority, due 4 days after time 0. -/
def c2taskB : Task :=
  { id := "b", title := "", description := "", priority := .high,
    due_date := 345600, status := .pending }

/-- A stored record with id "a". -/
def c3Task : Task :=
  { id := "a", title := "x", description := "", priority := .low,
    due_date := 0, status := .pending }

/-- A replacement record with id "b". -/
def c3Task2 : Task :=
  { id := "b", title := "y", description := "", priority := .low,
    due_date := 0, status := .pending }

/-- A pending High-priority record due 1 day after time 0. -/
def c5Task : Task :=
  { id := "p5", title := "", description := "", priority := .high,
    due_date := 86400, status := .pending }

/-- A High-priority record tagged both "meeting" and "report". -/
def c8Task : Task :=
  { id := "c8", title := "m", description := "", priority := .high,
    due_date := 0, status := .pending, tags := ["meeting", "report"] }

/-- Records for the store-operation sequences: ids "a" and "b". -/
def c9ta : Task :=
  { id := "a", title := "", description := "", priority := .low,
    due_date := 0, status := .pending }

/-- Second record for the store-operation sequences, id "b". -/
def c9tb : Task :=
  { id := "b", title := "", description := "", priority := .low,
    due_date := 0, status := .pending }

/-- Records for the update-replaces-first test: ids "p0", "old", "s0",
and a replacement whose id "fresh" differs from the one it replaces. -/
def c10Pre : Task :=
  { id := "p0", title := "", description := "", priority := .low,
    due_date := 0, status := .pending }

/-- The record to be replaced, id "old". -/
def c10Old : Task :=
  { id := "old", title := "", description := "", priority := .low,
    due_date := 0, status := .pending }

/-- The record after the one replaced, id "s0". -/
def c10Suf : Task :=
  { id := "s0", title := "", description := "", priority := .low,
    due_date := 0, status := .pending }

/-- The replacement record; its id "fresh" differs from "old". -/
def c10New : Task :=
  { id := "fresh", title := "", description := "", priority := .high,
    due_date := 7, status := .completed }

/-- The stored record of the sharing test. -/
def c4Task : Task :=
  { id := "a", title := "x", description := "", priority := .low,
    due_date := 0, status := .pending }

/-- A store holding one record, at heap address 0. -/
def c4Store : StoreState := { heap := [c4Task], tasks := [0] }

/-- `c4Store` after `get_task_by_id` copied its record to address 1. -/
def c4Store2 : StoreState := { heap := [c4Task, c4Task], tasks := [0] }

/-- A caller assigning a record's `title` field. -/
def setTitle (x : String) (t : Task) : Task := { t with title := x }

/-! ## Theorems -/

/-- C6: `estimated_duration` depends only on
`L = length title + length description`: it is 30 for L < 50, 60 for
50 ≤ L < 100, 120 for L ≥ 100; hence it is always one of {30, 60, 120}
and is monotonically non-decreasing in L. -/
theorem c6_estimated_duration (t1 d1 t2 d2 : String)
    (hle : t1.length + d1.length ≤ t2.length + d2.length) :
    (estimate_duration t1 d1 = 30 ∨ estimate_duration t1 d1 = 60 ∨
      estimate_duration t1 d1 = 120) ∧
    (t1.length + d1.length < 50 → estimate_duration t1 d1 = 30) ∧
    (50 ≤ t1.length + d1.length → t1.length + d1.length < 100 →
      estimate_duration t1 d1 = 60) ∧
    (100 ≤ t1.length + d1.length → estimate_duration t1 d1 = 120) ∧
    estimate_duration t1 d1 ≤ estimate_duration t2 d2 := by
  have e : ∀ a b : String, estimate_duration a b =
      if a.length + b.length < 50 then 30
      else if a.length + b.length < 100 then 60 else 120 := fun a b => rfl
  rw [e, e]
  split_ifs <;> simp_all <;> omega

/-- C6 witness: "Call client" with empty description has L = 11 < 50,
so duration 30, and duration never decreases when content grows. -/
theorem c6_witness :
    estimate_duration "Call client" "" = 30 ∧
    estimate_duration "Call client" "" ≤
      estimate_duration "Call client about the quarterly report"
        "and schedule the follow-up review meeting" := by
  have h := c6_estimated_duration "Call client" ""
    "Call client about the quarterly report"
    "and schedule the follow-up review meeting" (by decide)
  exact ⟨h.2.1 (by decide), h.2.2.2.2⟩

/-- C7 counterexample: with title "mee" and description "ting",
"meeting" is a case-insensitive substring of title ++ description, yet
the code extracts no tags, because it matches against
title ++ " " ++ description. -/
theorem c7_counterexample :
    extract_tags "mee" "ting" = [] ∧
    extract_tags_concat "mee" "ting" = ["meeting"] := by
  constructor <;> rfl

/-- C7 (amended): the extracted tags are exactly the subset of the
fixed vocabulary whose elements occur case-insensitively in
title ++ " " ++ description (title and description joined by one
space), listed in vocabulary order; the result is a deterministic
function of the content, so extracting twice yields the same
sequence. -/
theorem c7_extract_tags (title description : String) :
    List.Sublist (extract_tags title description) common_tags ∧
    (∀ tag, tag ∈ extract_tags title description ↔
      tag ∈ common_tags ∧
        substrB tag.toList (lowerChars (title ++ " " ++ description)) = true) := by
  constructor
  · exact List.filter_sublist _
  · intro tag
    simp [extract_tags, List.mem_filter]

/-- C8: `schedule_task` sets `scheduled_time = due_date − offset` with
offset 2 h / 1 h / 30 min for High / Medium / Low (unclamped, so a past
time is allowed), `preparation_time` 15 for "meeting" (taking
precedence over "report"), else 30 for "report", else 5, and
`buffer_time` constantly 15. -/
theorem c8_schedule_task (t : Task) :
    (schedule_task t).buffer_time = some 15 ∧
    (t.priority = Priority.high →
      (schedule_task t).scheduled_time = some (t.due_date - 7200)) ∧
    (t.priority = Priority.medium →
      (schedule_task t).scheduled_time = some (t.due_date - 3600)) ∧
    (t.priority = Priority.low →
      (schedule_task t).scheduled_time = some (t.due_date - 1800)) ∧
    (t.tags.contains "meeting" = true →
      (schedule_task t).preparation_time = some 15) ∧
    (t.tags.contains "meeting" = false → t.tags.contains "report" = true →
      (schedule_task t).preparation_time = some 30) ∧
    (t.tags.contains "meeting" = false → t.tags.contains "report" = false →
      (schedule_task t).preparation_time = some 5) := by
  unfold schedule_task calculate_optimal_time calculate_prep_time
  refine ⟨rfl, ?_, ?_, ?_, ?_, ?_, ?_⟩ <;> intros <;> simp_all

/-- C8 witness: the High-priority record tagged ["meeting", "report"]
is scheduled 7200 s before its due date (into the past), gets the
meeting preparation time 15 despite also carrying "report", and buffer
15. -/
theorem c8_witness :
    (schedule_task c8Task).buffer_time = some 15 ∧
    (schedule_task c8Task).scheduled_time = some (-7200) ∧
    (schedule_task c8Task).preparation_time = some 15 := by
  have h := c8_schedule_task c8Task
  exact ⟨h.1, (h.2.1 (by decide)).trans (by decide),
    h.2.2.2.2.1 (by decide)⟩

/-- `update_task` on a list containing no record with the given id
returns False and the unchanged list. -/
theorem update_task_not_found {ts : List Task} {task_id : String} (t : Task)
    (h : ∀ x ∈ ts, x.id ≠ task_id) :
    update_task ts task_id t = (false, ts) := by
  induction ts with
  | nil => rfl
  | cons x xs ih =>
    have hx : x.id ≠ task_id := h x (List.mem_cons_self x xs)
    simp [update_task, hx, ih (fun y hy => h y (List.mem_cons_of_mem x hy))]

/-- `delete_task` on a list containing no record with the given id
returns True and the unchanged list. -/
theorem delete_task_not_found {ts : List Task} {task_id : String}
    (h : ∀ x ∈ ts, x.id ≠ task_id) :
    delete_task ts task_id = (true, ts) := by
  unfold delete_task
  rw [List.filter_eq_self.mpr]
  intro a ha
  simpa using h a ha

/-- C3 counterexample: deleting a nonexistent identifier returns True,
not the False the claim states (the record set is indeed unchanged). -/
theorem c3_counterexample :
    delete_task [c3Task] "nope" = (true, [c3Task]) ∧
    (delete_task [c3Task] "nope").1 ≠ false := by
  constructor <;> decide

/-- C3 (amended): on an identifier not present in the store,
`update_task` returns False and leaves the record list unchanged, and
`delete_task` leaves the record list unchanged but returns True (the
code returns True whether or not anything was removed); neither can
raise. -/
theorem c3_missing_id (ts : List Task) (task_id : String) (t : Task)
    (h : ∀ x ∈ ts, x.id ≠ task_id) :
    update_task ts task_id t = (false, ts) ∧
    delete_task ts task_id = (true, ts) :=
  ⟨update_task_not_found t h, delete_task_not_found h⟩

/-- C3 witness: in a store holding only id "a", updating and deleting
id "nope" behave as stated. -/
theorem c3_witness :
    update_task [c3Task] "nope" c3Task2 = (false, [c3Task]) ∧
    delete_task [c3Task] "nope" = (true, [c3Task]) :=
  c3_missing_id [c3Task] "nope" c3Task2 (by decide)

/-- C10: `update_task` replaces the first record whose id equals
`task_id` with the replacement record in its entirety — the replacement
`t` is unconstrained, so its id may differ from `task_id` — returns
True, and leaves every other record unchanged in its original
position. -/
theorem c10_update_replaces_first (pre suf : List Task) (old t : Task)
    (task_id : String) (hpre : ∀ x ∈ pre, x.id ≠ task_id)
    (hold : old.id = task_id) :
    update_task (pre ++ old :: suf) task_id t = (true, pre ++ t :: suf) := by
  induction pre with
  | nil => simp [update_task, hold]
  | cons x xs ih =>
    have hx : x.id ≠ task_id :=
      hpre x (List.mem_cons_self x xs)
    simp [update_task, hx,
      ih (fun y hy => hpre y (List.mem_cons_of_mem x hy))]

/-- C10 witness: replacing the record with id "old" by a record whose
id is "fresh" swaps it out wholesale and leaves its neighbors in
place. -/
theorem c10_witness :
    update_task [c10Pre, c10Old, c10Suf] "old" c10New =
      (true, [c10Pre, c10New, c10Suf]) := by
  have h := c10_update_replaces_first [c10Pre] [c10Suf] c10Old c10New
    "old" (by decide) (by decide)
  exact h

/-- Scoring a record never changes its id. -/
theorem assign_score_id (now : Int) (t : Task) :
    (assign_score now t).id = t.id := by
  unfold assign_score
  split <;> rfl

/-- `getD` through `map`, inside the list's bounds. -/
theorem getD_map_lt (f : Task → Task) (l : List Task) (i : Nat)
    (h : i < l.length) :
    (l.map f).getD i default = f (l.getD i default) := by
  induction l generalizing i with
  | nil => simp at h
  | cons x xs ih =>
    cases i with
    | zero => rfl
    | succ n => simpa using ih n (by simpa using h)

/-- C2 counterexample: with input [B, A] where B scores 4 and A scores
5 (the claim's scenario records), `optimize_schedule` returns B before
A: the pending records are not sorted by score descending, and A is
not placed before B. -/
theorem c2_counterexample :
    (optimize_schedule 0 [c2taskB, c2taskA]).map
        (fun t => (t.id, t.optimization_score)) =
      [("b", some 4), ("a", some 5)] ∧
    (optimize_schedule 0 [c2taskB, c2taskA]).map Task.id ≠ ["a", "b"] := by
  constructor <;> decide

/-- C2 (amended): `optimize_schedule` returns the records in their
original input order — the output id sequence equals the input id
sequence. The scores are assigned in place, but the sort happens on a
discarded local list of the pending records, so the returned list is
never reordered; A precedes B in the output only if it did in the
input. -/
theorem c2_order_preserved (now : Int) (tasks : List Task) :
    (optimize_schedule now tasks).map Task.id = tasks.map Task.id := by
  unfold optimize_schedule
  rw [List.map_map]
  exact List.map_congr_left (fun t _ => assign_score_id now t)

/-- C5: `optimize_schedule` gives every pending record
`optimization_score = max 1 (5 − floor((due − now)/86400)) + p` with
p = 3/2/1 for High/Medium/Low, and leaves every non-pending record
untouched (no score is written). -/
theorem c5_scores (now : Int) (tasks : List Task) (i : Nat)
    (h : i < tasks.length) :
    ((tasks.getD i default).status = Status.pending →
      (optimize_schedule now tasks).getD i default =
        { tasks.getD i default with
            optimization_score := some
              (max 1 (5 - Int.fdiv ((tasks.getD i default).due_date - now) 86400) +
                match (tasks.getD i default).priority with
                | .high => 3
                | .medium => 2
                | .low => 1) }) ∧
    ((tasks.getD i default).status ≠ Status.pending →
      (optimize_schedule now tasks).getD i default = tasks.getD i default) := by
  have hmap := getD_map_lt (assign_score now) tasks i h
  unfold optimize_schedule
  rw [hmap]
  set t := tasks.getD i default with ht
  constructor
  · intro hp
    cases hpr : t.priority <;>
      simp [assign_score, days_until_due, priority_scores, hp, hpr]
  · intro hp
    simp [assign_score, hp]

/-- C5 witness: a pending High-priority record due one day after now
gets score max(1, 5−1) + 3 = 7; a completed record is untouched. -/
theorem c5_witness :
    (optimize_schedule 0 [c5Task]).getD 0 default =
      { c5Task with optimization_score := some 7 } ∧
    (optimize_schedule 0 [{ c5Task with status := .completed }]).getD 0 default =
      { c5Task with status := .completed } := by
  have h1 := (c5_scores 0 [c5Task] 0 (by decide)).1 (by decide)
  have h2 := (c5_scores 0 [{ c5Task with status := .completed }] 0
    (by decide)).2 (by decide)
  exact ⟨h1.trans (by decide), h2.trans (by decide)⟩

/-- The reminder accumulator only grows: anything already collected is
in the final list. -/
theorem mem_check_go_mono (now : Int) (tasks : List Task) (acc : List Task)
    (t : Task) (h : t ∈ acc) : t ∈ check_go now tasks acc := by
  induction tasks generalizing acc with
  | nil => exact h
  | cons x rest ih =>
    simp only [check_go]
    cases hc : classify now x with
    | none => exact ih acc h
    | some rt =>
      dsimp only
      split_ifs with h1 h2
      · exact ih _ (List.mem_append_left _ h)
      · exact ih _ h
      · exact ih _ (List.mem_append_left _ h)

/-- Every record that `classify` marks is present, with its
`reminder_type` written, in the list `check_go` returns. -/
theorem mem_check_go (now : Int) (tasks : List Task) (acc : List Task)
    (t : Task) (rt : ReminderType) (hmem : t ∈ tasks)
    (hc : classify now t = some rt) :
    { t with reminder_type := some rt } ∈ check_go now tasks acc := by
  induction tasks generalizing acc with
  | nil => simp at hmem
  | cons x rest ih =>
    rcases List.mem_cons.mp hmem with hx | hx
    · subst hx
      simp only [check_go, hc]
      split_ifs with h1 h2
      · exact mem_check_go_mono now rest _ _ (by simp)
      · exact mem_check_go_mono now rest _ _ h2
      · exact mem_check_go_mono now rest _ _ (by simp)
    · simp only [check_go]
      cases hcx : classify now x with
      | none => exact ih _ hx
      | some rtx =>
        dsimp only
        split_ifs <;> exact ih _ hx

/-- C1 counterexample: the pending High-priority record due in 1500 s
(25 min) is returned classified `due_in` 7200 s (the 2-hour threshold,
rendered `due_in_2:00:00` by the code), and no record classified
`due_in` 1800 s (`due_in_30min`) is returned, contrary to the claim. -/
theorem c1_counterexample :
    check_reminders 0 [c1Task25] =
      [{ c1Task25 with reminder_type := some (ReminderType.due_in 7200) }] ∧
    some (ReminderType.due_in 1800) ∉
      (check_reminders 0 [c1Task25]).map Task.reminder_type := by
  constructor <;> decide

/-- C1 (amended): for a non-completed record due in 25 minutes with
priority High, the first threshold in [2h, 1h, 30min] with
`time_until_due ≤ threshold` is 2h, so the record is classified
`due_in` 7200 s (not `due_in_30min`) and included; and every
non-completed record strictly past due is classified `overdue`
regardless of priority and included unconditionally. -/
theorem c1_classification (now : Int) (tasks : List Task) (t : Task)
    (hmem : t ∈ tasks) (hnc : t.status ≠ Status.completed) :
    (t.priority = Priority.high → t.due_date - now = 1500 →
      classify now t = some (ReminderType.due_in 7200) ∧
      { t with reminder_type := some (ReminderType.due_in 7200) } ∈
        check_reminders now tasks) ∧
    (t.due_date - now < 0 →
      classify now t = some ReminderType.overdue ∧
      { t with reminder_type := some ReminderType.overdue } ∈
        check_reminders now tasks) := by
  constructor
  · intro hp hdue
    have hc : classify now t = some (ReminderType.due_in 7200) := by
      unfold classify
      rw [if_neg hnc, hdue, hp]
      norm_num [reminder_thresholds, findThreshold]
    exact ⟨hc, mem_check_go now tasks [] t _ hmem hc⟩
  · intro hdue
    have hc : classify now t = some ReminderType.overdue := by
      unfold classify
      rw [if_neg hnc]
      simp [hdue]
    exact ⟨hc, mem_check_go now tasks [] t _ hmem hc⟩

/-- C1 witness: at time 0, the record due at 1500 s is classified and
returned as `due_in` 7200 s, and the record due at −3600 s (one hour in
the past, priority Low) is classified and returned as `overdue`. -/
theorem c1_witness :
    (classify 0 c1Task25 = some (ReminderType.due_in 7200) ∧
      { c1Task25 with reminder_type := some (ReminderType.due_in 7200) } ∈
        check_reminders 0 [c1Task25, c1TaskPast]) ∧
    (classify 0 c1TaskPast = some ReminderType.overdue ∧
      { c1TaskPast with reminder_type := some ReminderType.overdue } ∈
        check_reminders 0 [c1Task25, c1TaskPast]) := by
  have h1 := (c1_classification 0 [c1Task25, c1TaskPast] c1Task25
    (by decide) (by decide)).1 (by decide) (by decide)
  have h2 := (c1_classification 0 [c1Task25, c1TaskPast] c1TaskPast
    (by decide) (by decide)).2 (by decide)
  exact ⟨h1, h2⟩

/-- An update whose replacement keeps the addressed id leaves the
stored id sequence unchanged. -/
theorem update_task_map_id (ts : List Task) (task_id : String) (t : Task)
    (h : t.id = task_id) :
    (update_task ts task_id t).2.map Task.id = ts.map Task.id := by
  induction ts with
  | nil => rfl
  | cons x xs ih =>
    by_cases hx : x.id = task_id
    · simp [update_task, hx, h]
    · simp [update_task, hx, ih]

/-- Invariant carrier for the operation sequences: if the current
stored ids are distinct and disjoint from the ids the remaining
sequence will add, and the remaining adds are pairwise distinct and its
updates keep their ids, the final stored ids are distinct. -/
theorem exec_ops_nodup_aux (ops : List StoreOp) (st : List Task)
    (hst : (st.map Task.id).Nodup)
    (hadd : (addedIds ops).Nodup)
    (hdisj : ∀ x ∈ st.map Task.id, x ∉ addedIds ops)
    (hupd : updatesKeepId ops = true) :
    ((ops.foldl applyOp st).map Task.id).Nodup := by
  induction ops generalizing st with
  | nil => simpa using hst
  | cons op rest ih =>
    rw [List.foldl_cons]
    cases op with
    | add t =>
      have hadd2 : (addedIds (StoreOp.add t :: rest)) =
          t.id :: addedIds rest := rfl
      rw [hadd2] at hadd hdisj
      have htid : t.id ∉ st.map Task.id := fun hmem =>
        hdisj t.id hmem (List.mem_cons_self _ _)
      apply ih (st ++ [t])
      · rw [List.map_append]
        simp [List.nodup_append, hst, htid]
      · exact (List.nodup_cons.mp hadd).2
      · intro x hx
        rw [List.map_append] at hx
        rcases List.mem_append.mp hx with hx | hx
        · exact fun hc => hdisj x hx (List.mem_cons_of_mem _ hc)
        · have : x = t.id := by simpa using hx
          subst this
          exact (List.nodup_cons.mp hadd).1
      · exact hupd
    | update task_id t =>
      have hkeep : t.id = task_id ∧ updatesKeepId rest = true := by
        simpa [updatesKeepId] using hupd
      have hmap : (applyOp st (StoreOp.update task_id t)).map Task.id =
          st.map Task.id := update_task_map_id st task_id t hkeep.1
      apply ih
      · rw [hmap]; exact hst
      · exact hadd
      · rw [hmap]; exact hdisj
      · exact hkeep.2
    | delete task_id =>
      have hsub : List.Sublist ((applyOp st (StoreOp.delete task_id)).map Task.id)
          (st.map Task.id) :=
        List.Sublist.map Task.id (List.filter_sublist st)
      apply ih
      · exact List.Nodup.sublist hsub hst
      · exact hadd
      · intro x hx
        exact hdisj x (hsub.subset hx)
      · exact hupd

/-- C9 counterexample: from the empty store, add ids "a" and "b"
(distinct), then update id "a" with the record whose id is "b": the
store now holds ["b", "b"] — two records share an id although all
added records carried distinct ids. -/
theorem c9_counterexample :
    (addedIds [StoreOp.add c9ta, StoreOp.add c9tb,
      StoreOp.update "a" c9tb]).Nodup ∧
    ¬ ((execOps [StoreOp.add c9ta, StoreOp.add c9tb,
      StoreOp.update "a" c9tb]).map Task.id).Nodup := by
  constructor <;> decide

/-- C9 (amended): every sequence of add_task, update_task and
delete_task from the empty store in which the added records carry
pairwise distinct ids AND every update's replacement record keeps the
id it addresses (t.id = task_id) leaves the stored ids pairwise
distinct; without the update proviso an update can duplicate an id. -/
theorem c9_unique_ids (ops : List StoreOp)
    (hadd : (addedIds ops).Nodup) (hupd : updatesKeepId ops = true) :
    ((execOps ops).map Task.id).Nodup :=
  exec_ops_nodup_aux ops [] (by simp) hadd (by simp) hupd

/-- C9 witness: adding "a" and "b", deleting "a", then updating "b"
with a record still carrying id "b" keeps the stored ids distinct. -/
theorem c9_witness :
    ((execOps [StoreOp.add c9ta, StoreOp.add c9tb, StoreOp.delete "a",
      StoreOp.update "b" c9tb]).map Task.id).Nodup :=
  c9_unique_ids _ (by decide) (by decide)

/-- Reading below the length of the left part of an appended heap. -/
theorem getD_append_lt (l l2 : List Task) (b : Nat) (h : b < l.length) :
    (l ++ l2).getD b default = l.getD b default := by
  induction l generalizing b with
  | nil => simp at h
  | cons x xs ih =>
    cases b with
    | zero => rfl
    | succ n => simpa using ih n (by simpa using h)

/-- Setting the freshly appended cell of a heap touches no older cell. -/
theorem set_append_length (l : List Task) (x y : Task) :
    (l ++ [x]).set l.length y = l ++ [y] := by
  induction l with
  | nil => rfl
  | cons z zs ih =>
    show z :: (zs ++ [x]).set zs.length y = z :: (zs ++ [y])
    rw [ih]

/-- C4 counterexample: `get_all_tasks` hands back the stored record's
own address (the list copy is shallow), so assigning a field of that
returned record changes what the store subsequently reads — the
records are not independent copies. -/
theorem c4_counterexample :
    0 ∈ get_all_tasks c4Store ∧
    readStore (mutate c4Store 0 (setTitle "changed")) ≠ readStore c4Store := by
  constructor <;> decide

/-- C4 (amended): `get_task_by_id` does return an independent copy:
its result is a freshly allocated record not reachable from the store,
the copying itself leaves the stored records unchanged, and assigning
fields of the returned copy leaves every subsequent read of the store
unchanged. (`get_all_tasks`, by contrast, shares its records with the
store — see the counterexample.) -/
theorem c4_get_by_id_fresh (s : StoreState) (task_id : String) (a : Nat)
    (s2 : StoreState) (f : Task → Task) (hwf : wfStore s)
    (h : get_task_by_id s task_id = (some a, s2)) :
    a ∉ s2.tasks ∧ readStore s2 = readStore s ∧
    readStore (mutate s2 a f) = readStore s := by
  unfold get_task_by_id at h
  cases hf : s.tasks.find? (fun a => (s.heap.getD a default).id = task_id) with
  | none =>
    rw [hf] at h
    simp at h
  | some a0 =>
    rw [hf] at h
    have ha : a = s.heap.length := by
      have := congrArg Prod.fst h
      simpa using this.symm
    have hs2 : s2 = { s with heap := s.heap ++ [s.heap.getD a0 default] } := by
      have := congrArg Prod.snd h
      simpa using this.symm
    subst ha
    subst hs2
    refine ⟨?_, ?_, ?_⟩
    · intro hmem
      exact absurd (hwf _ hmem) (lt_irrefl _)
    · unfold readStore
      exact List.map_congr_left fun b hb =>
        getD_append_lt s.heap _ b (hwf b hb)
    · unfold readStore mutate
      dsimp only
      rw [set_append_length]
      exact List.map_congr_left fun b hb =>
        getD_append_lt s.heap _ b (hwf b hb)

/-- C4 witness: in the one-record store, `get_task_by_id` for id "a"
copies the record to the fresh address 1; that address is not in the
store, and retitling the copy leaves the store's reads exactly as they
were. -/
theorem c4_witness :
    1 ∉ c4Store2.tasks ∧ readStore c4Store2 = readStore c4Store ∧
    readStore (mutate c4Store2 1 (setTitle "changed")) = readStore c4Store := by
  have h := c4_get_by_id_fresh c4Store "a" 1 c4Store2 (setTitle "changed")
    (by unfold wfStore; decide) (by decide)
  exact h

end ToDo
